import Mathlib

/-!
Verification of the Kodeq live-coding runtime against its specification.

This file gives a shallow embedding, in Lean 4, of the parts of the Kodeq
source that the checked claims refer to:

* the integer expression evaluator (`expression.cpp`), embedded as a
  fuel-indexed recursive-descent parser over `List Char`;
* the generator modules (`module.hpp` and their implementation file):
  Pattern, Euclidean, Sine, Triangle, Sawtooth, Square, Random, Sequencer;
* the MIDI output manager (`midi_manager.cpp`), with the external RtMidi
  sink abstracted to three booleans and a wire log;
* the object-dialect `SeqObject`/`MIDISeqObject` (`base_object.hpp`,
  `midi_object.hpp`) and the `Environment::tick` driver (`environment.hpp`).

Modelling conventions:
* C++ `int` is embedded as `Int`; division and modulo use `Int.tdiv` /
  `Int.tmod`, which truncate toward zero exactly as C++ `/` and `%` do.
  32-bit overflow (undefined behaviour in the source) is abstracted away:
  none of the checked claims exercises it.
* fallible or possibly diverging code returns `Option`; the recursive
  descent parser takes an explicit fuel argument and returns `none` when
  the fuel runs out, so genuine non-termination of the source shows up as
  `∀ fuel, … = none`.
* diagnostics printed to `stderr` are collected in a `List Diag`.
-/

/-- Whitespace test used by `ExpressionEvaluator::isSpace`. -/
def isSpaceC (c : Char) : Bool :=
  c == ' ' || c == '\t' || c == '\r' || c == '\n'

/-- ASCII digit test (`std::isdigit` in the "C" locale). -/
def isDigitC (c : Char) : Bool :=
  48 ≤ c.toNat && c.toNat ≤ 57

/-- ASCII letter test (`std::isalpha` in the "C" locale). -/
def isAlphaC (c : Char) : Bool :=
  (65 ≤ c.toNat && c.toNat ≤ 90) || (97 ≤ c.toNat && c.toNat ≤ 122)

/-- ASCII hex digit test (`std::isxdigit` in the "C" locale). -/
def isXdigitC (c : Char) : Bool :=
  isDigitC c || (65 ≤ c.toNat && c.toNat ≤ 70) || (97 ≤ c.toNat && c.toNat ≤ 102)

/-- ASCII upper-casing (`std::toupper` in the "C" locale). -/
def toUpperC (c : Char) : Char :=
  if 97 ≤ c.toNat && c.toNat ≤ 122 then Char.ofNat (c.toNat - 32) else c

/-- `ExpressionEvaluator::skipWhitespace`: advance past whitespace. -/
def skipWs : List Char → List Char
  | [] => []
  | c :: r => if isSpaceC c then skipWs r else c :: r

/-- `ExpressionEvaluator::match`: skip whitespace, then consume `c` if it is
next.  Returns whether it matched together with the updated iterator; note
that the C++ version advances the iterator past whitespace even on failure,
which this mirrors. -/
def matchCh (c : Char) (l : List Char) : Bool × List Char :=
  match skipWs l with
  | [] => (false, [])
  | d :: r => if d == c then (true, r) else (false, d :: r)

/-- Numeric value of a list of decimal digits. -/
def digitsToInt (l : List Char) : Int :=
  l.foldl (fun a c => a * 10 + Int.ofNat (c.toNat - 48)) 0

/-- Numeric value of a list of binary digits. -/
def bitsToInt (l : List Char) : Int :=
  l.foldl (fun a c => a * 2 + Int.ofNat (c.toNat - 48)) 0

/-- Numeric value of one upper-case hex digit. -/
def hexDigitVal (c : Char) : Nat :=
  if isDigitC c then c.toNat - 48 else c.toNat - 55

/-- Numeric value of a list of upper-case hex digits. -/
def hexToInt (l : List Char) : Int :=
  l.foldl (fun a c => a * 16 + Int.ofNat (hexDigitVal c)) 0

/-- `KodeqParser::isInteger`: optional minus sign followed by one or more
decimal digits. -/
def isIntegerStr (l : List Char) : Bool :=
  match l with
  | [] => false
  | '-' :: r => !r.isEmpty && r.all isDigitC
  | _ => l.all isDigitC

/-- `KodeqParser::isBinaryPattern`: a `#` followed by one or more 0/1. -/
def isBinaryStr (l : List Char) : Bool :=
  match l with
  | '#' :: r => !r.isEmpty && r.all (fun c => c == '0' || c == '1')
  | _ => false

/-- `KodeqParser::isHexPattern`: an `X` followed by one or more hex digits. -/
def isHexStr (l : List Char) : Bool :=
  match l with
  | 'X' :: r => !r.isEmpty && r.all isXdigitC
  | _ => false

/-- `KodeqParser::parseLiteral`: decimal, `#`-binary or `X`-hex literal;
anything else yields 0.  `std::stoi` range overflow (which would throw in
the source) is abstracted to exact integer values; no checked claim
exercises it. -/
def parseLiteralFn (l : List Char) : Int :=
  if isIntegerStr l then
    match l with
    | '-' :: r => - digitsToInt r
    | _ => digitsToInt l
  else if isBinaryStr l then bitsToInt l.tail
  else if isHexStr l then hexToInt l.tail
  else 0

/-- `std::stoi` as used on sequencer step-parameter suffixes: skip leading
whitespace, accept an optional sign, then require at least one decimal
digit; extra non-digit characters after the digits are ignored.  Returns
`none` when the source call would throw `std::invalid_argument`. -/
def cppStoi (l : List Char) : Option Int :=
  let l1 := skipWs l
  let core : List Char → Option Int := fun d =>
    if d.takeWhile isDigitC |>.isEmpty then none
    else some (digitsToInt (d.takeWhile isDigitC))
  match l1 with
  | '-' :: r => (core r).map (fun v => -v)
  | '+' :: r => core r
  | _ => core l1

/-- C++ `<<` on `int` for the evaluator: multiply by a power of two for a
non-negative shift count; a negative count is undefined behaviour in the
source and is mapped to 0 here. -/
def cppShl (a n : Int) : Int :=
  if 0 ≤ n then a * (2 ^ n.toNat) else 0

/-- C++ `>>` on `int`: arithmetic right shift for a non-negative count (the
behaviour of the compilers the source targets); a negative count is
undefined behaviour and is mapped to 0 here. -/
def cppShr (a n : Int) : Int :=
  if 0 ≤ n then Int.shiftRight a n.toNat else 0

/-- Diagnostics the evaluator prints to `stderr`, one constructor per
distinct message in `expression.cpp`. -/
inductive Diag where
  | unexpectedEnd : Diag
  | unexpectedChar (c : Char) : Diag
  | expectedCloseParen : Diag
  | expectedColon : Diag
  | expectedCommaOrParen : Diag
  | unknownFunc (name : List Char) : Diag
  | arityErr (name : List Char) : Diag
  | undefinedVar (name : Char) : Diag
  | divByZero : Diag
  | modByZero : Diag
  | trailingChar (c : Char) : Diag
  deriving DecidableEq

/-- The host services the evaluator reaches through its `parser` reference:
variable lookup, the tick counter, and the shared random generator (the
latter abstracted to a function; no checked claim exercises it). -/
structure EvalCtx where
  getVar : Char → Option Int
  tickCount : Int
  rndFn : Int → Int → Int

/-- Result of one parse routine: value, remaining input, diagnostics
emitted — or `none` when the fuel ran out. -/
abbrev PResult := Option (Int × List Char × List Diag)

/-- Function-call dispatch at the end of `ExpressionEvaluator::parseFunction`:
`MIN`, `MAX`, `ABS`, `CLAMP`, `RND` with fixed arities; anything else is an
unknown function.  Returns the value and any diagnostic. -/
def applyFunc (ctx : EvalCtx) (name : List Char) (args : List Int) : Int × List Diag :=
  if name == ['M', 'I', 'N'] then
    match args with
    | [a, b] => (min a b, [])
    | _ => (0, [Diag.arityErr name])
  else if name == ['M', 'A', 'X'] then
    match args with
    | [a, b] => (max a b, [])
    | _ => (0, [Diag.arityErr name])
  else if name == ['A', 'B', 'S'] then
    match args with
    | [a] => (if a < 0 then -a else a, [])
    | _ => (0, [Diag.arityErr name])
  else if name == ['C', 'L', 'A', 'M', 'P'] then
    match args with
    | [a, b, c] => (min (max a b) c, [])
    | _ => (0, [Diag.arityErr name])
  else if name == ['R', 'N', 'D'] then
    match args with
    | [a, b] => (ctx.rndFn a b, [])
    | _ => (0, [Diag.arityErr name])
  else (0, [Diag.unknownFunc name])

/-- One pending call of the mutually recursive descent in `expression.cpp`.
Each constructor is one parse routine (or the body of one of its operator
loops, carrying the accumulated left value and diagnostics). -/
inductive PCall where
  | cCond (rest : List Char)
  | cLor (rest : List Char)
  | cLorLoop (left : Int) (rest : List Char) (errs : List Diag)
  | cLand (rest : List Char)
  | cLandLoop (left : Int) (rest : List Char) (errs : List Diag)
  | cBor (rest : List Char)
  | cBorLoop (left : Int) (rest : List Char) (errs : List Diag)
  | cBxor (rest : List Char)
  | cBxorLoop (left : Int) (rest : List Char) (errs : List Diag)
  | cBand (rest : List Char)
  | cBandLoop (left : Int) (rest : List Char) (errs : List Diag)
  | cEq (rest : List Char)
  | cEqLoop (left : Int) (rest : List Char) (errs : List Diag)
  | cRel (rest : List Char)
  | cRelLoop (left : Int) (rest : List Char) (errs : List Diag)
  | cShift (rest : List Char)
  | cShiftLoop (left : Int) (rest : List Char) (errs : List Diag)
  | cAdd (rest : List Char)
  | cAddLoop (left : Int) (rest : List Char) (errs : List Diag)
  | cTerm (rest : List Char)
  | cTermLoop (left : Int) (rest : List Char) (errs : List Diag)
  | cPrimary (rest : List Char)
  | cFunction (rest : List Char)
  | cArgs (fname : List Char) (args : List Int) (rest : List Char) (errs : List Diag)

/-- The whole recursive descent of `expression.cpp` as a single function,
structurally recursive on an explicit fuel so that it evaluates in the
kernel; every (mutually) recursive call of the source consumes one unit of
fuel.  Running out of fuel yields `none`; the source has no fuel, so a
result that is `none` for every fuel witnesses non-termination of the
original. -/
def pstep (ctx : EvalCtx) : Nat → PCall → PResult
  | 0, _ => none
  | n + 1, call =>
    match call with
    | .cCond rest =>
      match pstep ctx n (.cLor rest) with
      | none => none
      | some (cond, r, e) =>
        match skipWs r with
        | '?' :: rt =>
          match pstep ctx n (.cCond rt) with
          | none => none
          | some (tv, r2, e2) =>
            let m := matchCh ':' r2
            if m.1 then
              match pstep ctx n (.cCond m.2) with
              | none => none
              | some (fv, r4, e4) =>
                some (if cond ≠ 0 then tv else fv, r4, e ++ e2 ++ e4)
            else some (0, m.2, e ++ e2 ++ [Diag.expectedColon])
        | r' => some (cond, r', e)
    | .cLor rest =>
      match pstep ctx n (.cLand rest) with
      | none => none
      | some (v, r, e) => pstep ctx n (.cLorLoop v r e)
    | .cLorLoop left rest errs =>
      match skipWs rest with
      | [] => some (left, [], errs)
      | [c] => some (left, [c], errs)
      | c1 :: c2 :: rt =>
        if c1 == '|' && c2 == '|' then
          match pstep ctx n (.cLand rt) with
          | none => none
          | some (v, r, e) =>
            pstep ctx n (.cLorLoop (if left ≠ 0 ∨ v ≠ 0 then 1 else 0) r (errs ++ e))
        else some (left, c1 :: c2 :: rt, errs)
    | .cLand rest =>
      match pstep ctx n (.cBor rest) with
      | none => none
      | some (v, r, e) => pstep ctx n (.cLandLoop v r e)
    | .cLandLoop left rest errs =>
      match skipWs rest with
      | [] => some (left, [], errs)
      | [c] => some (left, [c], errs)
      | c1 :: c2 :: rt =>
        if c1 == '&' && c2 == '&' then
          match pstep ctx n (.cBor rt) with
          | none => none
          | some (v, r, e) =>
            pstep ctx n (.cLandLoop (if left ≠ 0 ∧ v ≠ 0 then 1 else 0) r (errs ++ e))
        else some (left, c1 :: c2 :: rt, errs)
    | .cBor rest =>
      match pstep ctx n (.cBxor rest) with
      | none => none
      | some (v, r, e) => pstep ctx n (.cBorLoop v r e)
    | .cBorLoop left rest errs =>
      match skipWs rest with
      | [] => some (left, [], errs)
      | c :: rt =>
        if c == '|' && !(rt.headD ' ' == '|' && !rt.isEmpty) then
          match pstep ctx n (.cBxor rt) with
          | none => none
          | some (v, r, e) => pstep ctx n (.cBorLoop (Int.lor left v) r (errs ++ e))
        else some (left, c :: rt, errs)
    | .cBxor rest =>
      match pstep ctx n (.cBand rest) with
      | none => none
      | some (v, r, e) => pstep ctx n (.cBxorLoop v r e)
    | .cBxorLoop left rest errs =>
      match skipWs rest with
      | [] => some (left, [], errs)
      | c :: rt =>
        if c == '^' then
          match pstep ctx n (.cBand rt) with
          | none => none
          | some (v, r, e) => pstep ctx n (.cBxorLoop (Int.xor left v) r (errs ++ e))
        else some (left, c :: rt, errs)
    | .cBand rest =>
      match pstep ctx n (.cEq rest) with
      | none => none
      | some (v, r, e) => pstep ctx n (.cBandLoop v r e)
    | .cBandLoop left rest errs =>
      match skipWs rest with
      | [] => some (left, [], errs)
      | c :: rt =>
        if c == '&' && !(rt.headD ' ' == '&' && !rt.isEmpty) then
          match pstep ctx n (.cEq rt) with
          | none => none
          | some (v, r, e) => pstep ctx n (.cBandLoop (Int.land left v) r (errs ++ e))
        else some (left, c :: rt, errs)
    | .cEq rest =>
      match pstep ctx n (.cRel rest) with
      | none => none
      | some (v, r, e) => pstep ctx n (.cEqLoop v r e)
    | .cEqLoop left rest errs =>
      match skipWs rest with
      | [] => some (left, [], errs)
      | [c] => some (left, [c], errs)
      | c1 :: c2 :: rt =>
        if c1 == '=' && c2 == '=' then
          match pstep ctx n (.cRel rt) with
          | none => none
          | some (v, r, e) =>
            pstep ctx n (.cEqLoop (if left = v then 1 else 0) r (errs ++ e))
        else if c1 == '!' && c2 == '=' then
          match pstep ctx n (.cRel rt) with
          | none => none
          | some (v, r, e) =>
            pstep ctx n (.cEqLoop (if left ≠ v then 1 else 0) r (errs ++ e))
        else some (left, c1 :: c2 :: rt, errs)
    | .cRel rest =>
      match pstep ctx n (.cShift rest) with
      | none => none
      | some (v, r, e) => pstep ctx n (.cRelLoop v r e)
    | .cRelLoop left rest errs =>
      match skipWs rest with
      | [] => some (left, [], errs)
      | c :: rt =>
        if c == '<' then
          match rt with
          | '=' :: rt2 =>
            match pstep ctx n (.cShift rt2) with
            | none => none
            | some (v, r, e) =>
              pstep ctx n (.cRelLoop (if left ≤ v then 1 else 0) r (errs ++ e))
          | _ =>
            match pstep ctx n (.cShift rt) with
            | none => none
            | some (v, r, e) =>
              pstep ctx n (.cRelLoop (if left < v then 1 else 0) r (errs ++ e))
        else if c == '>' then
          match rt with
          | '=' :: rt2 =>
            match pstep ctx n (.cShift rt2) with
            | none => none
            | some (v, r, e) =>
              pstep ctx n (.cRelLoop (if v ≤ left then 1 else 0) r (errs ++ e))
          | _ =>
            match pstep ctx n (.cShift rt) with
            | none => none
            | some (v, r, e) =>
              pstep ctx n (.cRelLoop (if v < left then 1 else 0) r (errs ++ e))
        else some (left, c :: rt, errs)
    | .cShift rest =>
      match pstep ctx n (.cAdd rest) with
      | none => none
      | some (v, r, e) => pstep ctx n (.cShiftLoop v r e)
    | .cShiftLoop left rest errs =>
      match skipWs rest with
      | [] => some (left, [], errs)
      | [c] => some (left, [c], errs)
      | c1 :: c2 :: rt =>
        if c1 == '<' && c2 == '<' then
          match pstep ctx n (.cAdd rt) with
          | none => none
          | some (v, r, e) => pstep ctx n (.cShiftLoop (cppShl left v) r (errs ++ e))
        else if c1 == '>' && c2 == '>' then
          match pstep ctx n (.cAdd rt) with
          | none => none
          | some (v, r, e) => pstep ctx n (.cShiftLoop (cppShr left v) r (errs ++ e))
        else some (left, c1 :: c2 :: rt, errs)
    | .cAdd rest =>
      match pstep ctx n (.cTerm rest) with
      | none => none
      | some (v, r, e) => pstep ctx n (.cAddLoop v r e)
    | .cAddLoop left rest errs =>
      match skipWs rest with
      | [] => some (left, [], errs)
      | c :: rt =>
        if c == '+' then
          match pstep ctx n (.cTerm rt) with
          | none => none
          | some (v, r, e) => pstep ctx n (.cAddLoop (left + v) r (errs ++ e))
        else if c == '-' then
          match pstep ctx n (.cTerm rt) with
          | none => none
          | some (v, r, e) => pstep ctx n (.cAddLoop (left - v) r (errs ++ e))
        else some (left, c :: rt, errs)
    | .cTerm rest =>
      match pstep ctx n (.cPrimary rest) with
      | none => none
      | some (v, r, e) => pstep ctx n (.cTermLoop v r e)
    | .cTermLoop left rest errs =>
      match skipWs rest with
      | [] => some (left, [], errs)
      | c :: rt =>
        if c == '*' then
          match pstep ctx n (.cPrimary rt) with
          | none => none
          | some (v, r, e) => pstep ctx n (.cTermLoop (left * v) r (errs ++ e))
        else if c == '/' then
          match pstep ctx n (.cPrimary rt) with
          | none => none
          | some (v, r, e) =>
            if v = 0 then some (0, r, errs ++ e ++ [Diag.divByZero])
            else pstep ctx n (.cTermLoop (Int.tdiv left v) r (errs ++ e))
        else if c == '%' then
          match pstep ctx n (.cPrimary rt) with
          | none => none
          | some (v, r, e) =>
            if v = 0 then some (0, r, errs ++ e ++ [Diag.modByZero])
            else pstep ctx n (.cTermLoop (Int.tmod left v) r (errs ++ e))
        else some (left, c :: rt, errs)
    | .cPrimary rest =>
      match skipWs rest with
      | [] => some (0, [], [Diag.unexpectedEnd])
      | c :: rt =>
        if isAlphaC c && !(c == 'X') && !(c == 'x') && !(c == 'T') && !(c == 't') then
          pstep ctx n (.cFunction (c :: rt))
        else if c == '(' then
          match pstep ctx n (.cCond rt) with
          | none => none
          | some (v, r, e) =>
            let m := matchCh ')' r
            if m.1 then some (v, m.2, e)
            else some (0, m.2, e ++ [Diag.expectedCloseParen])
        else if c == '-' then
          match pstep ctx n (.cPrimary rt) with
          | none => none
          | some (v, r, e) => some (-v, r, e)
        else if c == '~' then
          match pstep ctx n (.cPrimary rt) with
          | none => none
          | some (v, r, e) => some (-(v + 1), r, e)
        else if c == '$' && isAlphaC (rt.headD ' ') then
          let vn := toUpperC (rt.headD ' ')
          match ctx.getVar vn with
          | some x => some (x, rt.tail, [])
          | none => some (0, rt.tail, [Diag.undefinedVar vn])
        else if isDigitC c || c == '#' || c == 'X' || c == 'x' then
          if c == '#' then
            let bits := rt.takeWhile (fun d => d == '0' || d == '1')
            some (parseLiteralFn ('#' :: bits),
              rt.dropWhile (fun d => d == '0' || d == '1'), [])
          else if c == 'X' || c == 'x' then
            let hx := rt.takeWhile isXdigitC
            some (parseLiteralFn ('X' :: hx.map toUpperC), rt.dropWhile isXdigitC, [])
          else
            some (digitsToInt ((c :: rt).takeWhile isDigitC),
              (c :: rt).dropWhile isDigitC, [])
        else if c == 'T' || c == 't' then
          some (ctx.tickCount, rt, [])
        else
          some (0, c :: rt, [Diag.unexpectedChar c])
    | .cFunction rest =>
      match skipWs rest with
      | [] => some (0, [], [])
      | c0 :: r0 =>
        let r := c0 :: r0
        let name := r.takeWhile isAlphaC
        let r1 := r.dropWhile isAlphaC
        if name.isEmpty then pstep ctx n (.cPrimary r)
        else
          let fname := name.map toUpperC
          let m := matchCh '(' r1
          if m.1 then
            let mc := matchCh ')' m.2
            if mc.1 then
              let res := applyFunc ctx fname []
              some (res.1, mc.2, res.2)
            else pstep ctx n (.cArgs fname [] mc.2 [])
          else pstep ctx n (.cPrimary r)
    | .cArgs fname args rest errs =>
      match pstep ctx n (.cCond rest) with
      | none => none
      | some (v, r1, e1) =>
        let mc := matchCh ')' r1
        if mc.1 then
          let res := applyFunc ctx fname (args ++ [v])
          some (res.1, mc.2, errs ++ e1 ++ res.2)
        else
          let mm := matchCh ',' mc.2
          if mm.1 then pstep ctx n (.cArgs fname (args ++ [v]) mm.2 (errs ++ e1))
          else some (0, mm.2, errs ++ e1 ++ [Diag.expectedCommaOrParen])

/-- `ExpressionEvaluator::evaluate` with explicit fuel: run the full
conditional-level parse, then report any unconsumed character as a
diagnostic (the value is still returned). -/
def evaluateF (ctx : EvalCtx) (fuel : Nat) (chars : List Char) : Option (Int × List Diag) :=
  match pstep ctx fuel (.cCond chars) with
  | none => none
  | some (v, r, e) =>
    match skipWs r with
    | [] => some (v, e)
    | c :: _ => some (v, e ++ [Diag.trailingChar c])

/-- Host context for expressions that use no variables, no tick counter and
no random call: every lookup fails, the tick is 0, the random source
returns its lower bound. -/
def defaultCtx : EvalCtx :=
  { getVar := fun _ => none, tickCount := 0, rndFn := fun a _ => a }

/-- Stand-in for the `std::mt19937` + `std::uniform_int_distribution<int>(1,100)`
draw pipeline of `RandomModule`: a deterministic stream of values in
`[1, 100]`, indexed by the seed the engine was last seeded with and by how
many values have been drawn since.  The source's stream is likewise
deterministic in (seed, draw count); its exact values are
implementation-defined, so a concrete representative stream is used. -/
def rndStream (seed : Int) (i : Nat) : Int :=
  (seed + Int.ofNat i).emod 100 + 1

/-- State of `RandomModule`.  `rngSeed`/`rngPos` are the modelled
`std::mt19937` engine state: the last seed fed to `rng.seed` and the number
of values drawn since.  `regenCount` instruments how many times
`generatePattern` has run (the source has no such counter; it only counts
regenerations for the statements below). -/
structure RndState where
  probability : Int
  seed : Int
  length : Int
  pos : Int
  rngSeed : Int
  rngPos : Nat
  regenerateOnCycle : Bool
  pattern : List Bool
  regenCount : Nat
  deriving DecidableEq

/-- `RandomModule::generatePattern`: resize the buffer to `length` and fill
each slot with `dist(rng) <= probability`, drawing `length` fresh values
from the engine (which therefore advances). -/
def generatePattern (s : RndState) : RndState :=
  { s with
    pattern := (List.range s.length.toNat).map
      (fun i => decide (rndStream s.rngSeed (s.rngPos + i) ≤ s.probability)),
    rngPos := s.rngPos + s.length.toNat,
    regenCount := s.regenCount + 1 }

/-- `RandomModule`'s constructor: probability 50, seed 0, length 16, pos 0,
regenerate-on-cycle on, engine seeded with 0, then one `generatePattern`. -/
def rndInit : RndState :=
  generatePattern
    { probability := 50, seed := 0, length := 16, pos := 0, rngSeed := 0,
      rngPos := 0, regenerateOnCycle := true, pattern := [], regenCount := 0 }

/-- `RandomModule::setParameter`. -/
def rndSetParameter (s : RndState) (name : String) (v : Int) : RndState :=
  if name == "P" then generatePattern { s with probability := min 100 (max 0 v) }
  else if name == "LEN" then generatePattern { s with length := max 1 v }
  else if name == "POS" then { s with pos := v }
  else if name == "SEED" then
    generatePattern { s with seed := v, rngSeed := v, rngPos := 0 }
  else if name == "REGEN" then { s with regenerateOnCycle := v != 0 }
  else s

/-- `RandomModule::getValue`: regenerate first when the position has wrapped
to 0 (and regeneration-on-cycle is on), then read the buffer.  A negative
buffer index would be undefined behaviour in the source; it is mapped to a
default read here and is not exercised by any claim. -/
def rndGetValue (s : RndState) : Int × RndState :=
  let s1 :=
    if s.pos.tmod s.length == 0 && s.regenerateOnCycle && decide (s.pos > 0)
    then generatePattern s else s
  (if s1.pattern.getD (s1.pos.tmod s1.length).toNat false then 1 else 0, s1)

/-- The closed set of generator variants of the module dialect, one
constructor per `Module` subclass, carrying exactly the C++ data members. -/
inductive KModule where
  | pat (pattern index : Int)
  | euc (hits steps index : Int)
  | sin (length pos amp : Int)
  | tri (length pos amp : Int)
  | saw (length pos amp : Int)
  | sqr (length pos amp duty : Int)
  | rnd (s : RndState)
  | seqm (steps : List Int) (pos length : Int) (looping : Bool)
  deriving DecidableEq

/-- `setParameter` for every generator variant, transcribed branch by branch
from the implementation file. -/
def setParameter (m : KModule) (name : String) (v : Int) : KModule :=
  match m with
  | .pat p i =>
    if name == "P" then .pat v i
    else if name == "I" then .pat p v
    else .pat p i
  | .euc h s i =>
    if name == "K" then .euc (max 0 v) s i
    else if name == "N" then .euc h (max 1 v) i
    else if name == "I" then .euc h s v
    else .euc h s i
  | .sin l p a =>
    if name == "LEN" then .sin (max 1 v) p a
    else if name == "POS" then .sin l v a
    else if name == "A" then .sin l p (min 127 (max 0 v))
    else .sin l p a
  | .tri l p a =>
    if name == "LEN" then .tri (max 1 v) p a
    else if name == "POS" then .tri l v a
    else if name == "A" then .tri l p (min 127 (max 0 v))
    else .tri l p a
  | .saw l p a =>
    if name == "LEN" then .saw (max 1 v) p a
    else if name == "POS" then .saw l v a
    else if name == "A" then .saw l p (min 127 (max 0 v))
    else .saw l p a
  | .sqr l p a d =>
    if name == "LEN" then .sqr (max 1 v) p a d
    else if name == "POS" then .sqr l v a d
    else if name == "A" then .sqr l p (min 127 (max 0 v)) d
    else if name == "D" then .sqr l p a (min 100 (max 0 v))
    else .sqr l p a d
  | .rnd s => .rnd (rndSetParameter s name v)
  | .seqm st p l lp =>
    if name == "POS" then .seqm st v l lp
    else if name == "LEN" then .seqm st p (min 16 (max 1 v)) lp
    else if name == "LOOP" then .seqm st p l (v != 0)
    else if name.length > 1 && name.toList.headD ' ' == 'S' then
      match cppStoi (name.toList.drop 1) with
      | some k =>
        if 0 ≤ k - 1 ∧ k - 1 < 16 then .seqm (st.set (k - 1).toNat v) p l lp
        else .seqm st p l lp
      | none => .seqm st p l lp
    else .seqm st p l lp

/-- `EuclideanModule::getValue`. -/
def eucGetValue (hits steps index : Int) : Int :=
  if steps = 0 then 0
  else if hits ≥ steps then 1
  else if hits = 0 then 0
  else if (index * hits).tmod steps < hits then 1 else 0

/-- `PatternModule::getValue`: the bit of the 32-bit mask at `index % 32`
(a negative index makes the shift undefined behaviour in the source; the
abstraction maps it to 0, unexercised by the claims). -/
def patGetValue (pattern index : Int) : Int :=
  Int.land (cppShr pattern (index.tmod 32)) 1

/-- The sine lookup table of `SineModule::getValue`. -/
def sinTable : List Int :=
  [128, 176, 218, 245, 255, 245, 218, 176, 128, 80, 38, 11, 0, 11, 38, 80]

/-- Amplitude scaling shared by the waveform generators:
`128 + ((value - 128) * amp) / 127`. -/
def ampScale (amp value : Int) : Int :=
  128 + Int.tdiv ((value - 128) * amp) 127

/-- `SineModule::getValue`. -/
def sinGetValue (length pos amp : Int) : Int :=
  let idx := Int.tdiv ((pos.tmod length) * 16) length
  ampScale amp (sinTable.getD idx.toNat 0)

/-- `TriangleModule::getValue`. -/
def triGetValue (length pos amp : Int) : Int :=
  let normalizedPos := Int.tdiv ((pos.tmod length) * 256) length
  let value :=
    if normalizedPos < 128 then Int.tdiv (normalizedPos * 255) 128
    else 255 - Int.tdiv ((normalizedPos - 128) * 255) 128
  ampScale amp value

/-- `SawtoothModule::getValue`. -/
def sawGetValue (length pos amp : Int) : Int :=
  ampScale amp (Int.tdiv ((pos.tmod length) * 255) length)

/-- `SquareModule::getValue`. -/
def sqrGetValue (length pos amp duty : Int) : Int :=
  let normalizedPos := Int.tdiv ((pos.tmod length) * 100) length
  ampScale amp (if normalizedPos < duty then 255 else 0)

/-- `SequencerModule::getValue`. -/
def seqmGetValue (steps : List Int) (pos length : Int) (looping : Bool) : Int :=
  if pos ≥ length ∧ !looping then 0
  else steps.getD ((pos.tmod length).toNat) 0

/-- Value production for every generator variant; only `Random` also
returns an updated state (its lazy regeneration on cycle wrap). -/
def getValueM (m : KModule) : Int × KModule :=
  match m with
  | .pat p i => (patGetValue p i, m)
  | .euc h s i => (eucGetValue h s i, m)
  | .sin l p a => (sinGetValue l p a, m)
  | .tri l p a => (triGetValue l p a, m)
  | .saw l p a => (sawGetValue l p a, m)
  | .sqr l p a d => (sqrGetValue l p a d, m)
  | .rnd s => let r := rndGetValue s; (r.1, .rnd r.2)
  | .seqm st p l lp => (seqmGetValue st p l lp, m)

/-- `ModuleFactory::createModule` with each constructor's member
initializers. -/
def createModule (t : String) : Option KModule :=
  if t == "PAT" then some (.pat 0 0)
  else if t == "EUC" then some (.euc 0 8 0)
  else if t == "SIN" then some (.sin 16 0 127)
  else if t == "TRI" then some (.tri 16 0 127)
  else if t == "SAW" then some (.saw 16 0 127)
  else if t == "SQR" then some (.sqr 16 0 127 50)
  else if t == "RND" then some (.rnd rndInit)
  else if t == "SEQ" then some (.seqm (List.replicate 16 0) 0 8 true)
  else none

/-- The range invariant claimed for the generator state: steps/length at
least 1, amplitude in [0,127], duty and probability in [0,100]. -/
def minv : KModule → Prop
  | .pat _ _ => True
  | .euc _ s _ => 1 ≤ s
  | .sin l _ a => 1 ≤ l ∧ 0 ≤ a ∧ a ≤ 127
  | .tri l _ a => 1 ≤ l ∧ 0 ≤ a ∧ a ≤ 127
  | .saw l _ a => 1 ≤ l ∧ 0 ≤ a ∧ a ≤ 127
  | .sqr l _ a d => 1 ≤ l ∧ 0 ≤ a ∧ a ≤ 127 ∧ 0 ≤ d ∧ d ≤ 100
  | .rnd s => 1 ≤ s.length ∧ 0 ≤ s.probability ∧ s.probability ≤ 100
  | .seqm _ _ l _ => 1 ≤ l

instance : DecidablePred minv := fun m => by
  cases m <;> simp only [minv] <;> infer_instance

/-- The parameter names the specification documents for the Sequencer
generator: position, length, loop flag and the step setters `S1`–`S16`. -/
def seqSpecParams : List String :=
  ["POS", "LEN", "LOOP",
   "S1", "S2", "S3", "S4", "S5", "S6", "S7", "S8",
   "S9", "S10", "S11", "S12", "S13", "S14", "S15", "S16"]

/-- The parameter names each variant's `setParameter` actually keys on.  For
the Sequencer this is wider than the documented `S1`–`S16`: any name whose
first character is `S` and whose remainder starts with digits that
`std::stoi` reads as a value in [1,16] addresses a step (so `S01` or `S1X`
alias `S1`). -/
def recognizedParam (m : KModule) (name : String) : Bool :=
  match m with
  | .pat _ _ => name == "P" || name == "I"
  | .euc _ _ _ => name == "K" || name == "N" || name == "I"
  | .sin _ _ _ => name == "LEN" || name == "POS" || name == "A"
  | .tri _ _ _ => name == "LEN" || name == "POS" || name == "A"
  | .saw _ _ _ => name == "LEN" || name == "POS" || name == "A"
  | .sqr _ _ _ _ => name == "LEN" || name == "POS" || name == "A" || name == "D"
  | .rnd _ =>
    name == "P" || name == "LEN" || name == "POS" || name == "SEED" || name == "REGEN"
  | .seqm _ _ _ _ =>
    name == "POS" || name == "LEN" || name == "LOOP" ||
      (name.length > 1 && name.toList.headD ' ' == 'S' &&
        (cppStoi (name.toList.drop 1)).elim false
          (fun k => decide (1 ≤ k) && decide (k ≤ 16)))

/-- The `MIDIMessage::Type` enumeration. -/
inductive MsgType where
  | noteOn | noteOff | cc | programChange | aftertouch | pitchBend | sysMsg
  deriving DecidableEq

/-- The `MIDIMessage` struct (the unused timestamp field is omitted). -/
structure MIDIMessage where
  mtype : MsgType
  channel : Int
  data1 : Int
  data2 : Int
  deriving DecidableEq

/-- The byte-frame translation inside `MIDIManager::sendMessage`:
status nibble with the channel in the low nibble, then 7-bit-masked data
bytes; the `SYSTEM` type falls into the `default:` branch, which sends
nothing and reports failure. -/
def encodeMessage (m : MIDIMessage) : Option (List Int) :=
  match m.mtype with
  | .noteOn =>
    some [Int.lor 0x90 (Int.land m.channel 0x0F),
      Int.land m.data1 0x7F, Int.land m.data2 0x7F]
  | .noteOff =>
    some [Int.lor 0x80 (Int.land m.channel 0x0F),
      Int.land m.data1 0x7F, Int.land m.data2 0x7F]
  | .cc =>
    some [Int.lor 0xB0 (Int.land m.channel 0x0F),
      Int.land m.data1 0x7F, Int.land m.data2 0x7F]
  | .programChange =>
    some [Int.lor 0xC0 (Int.land m.channel 0x0F), Int.land m.data1 0x7F]
  | .aftertouch =>
    some [Int.lor 0xA0 (Int.land m.channel 0x0F),
      Int.land m.data1 0x7F, Int.land m.data2 0x7F]
  | .pitchBend =>
    some [Int.lor 0xE0 (Int.land m.channel 0x0F),
      Int.land m.data1 0x7F, Int.land m.data2 0x7F]
  | .sysMsg => none

/-- Observable state of `MIDIManager`: the three gating conditions of
`sendMessage` (`initialized`, a live `midiOut` handle, an open port), the
frames already delivered to the sink (`wire`), and the producer queue used
by the background dispatcher. -/
structure MIDIManagerState where
  initialized : Bool
  hasOut : Bool
  portOpen : Bool
  wire : List (List Int)
  messageQueue : List MIDIMessage
  deriving DecidableEq

/-- `MIDIManager`'s constructor: not initialized, no handle, no open port,
nothing sent, nothing queued. -/
def midiManagerInit : MIDIManagerState :=
  { initialized := false, hasOut := false, portOpen := false,
    wire := [], messageQueue := [] }

/-- `MIDIManager::sendMessage`: fail fast (false, state untouched) when not
initialized, the handle is missing, or the port is not open; otherwise
translate to a byte frame and deliver it. -/
def sendMessage (st : MIDIManagerState) (m : MIDIMessage) : Bool × MIDIManagerState :=
  if !(st.initialized && st.hasOut && st.portOpen) then (false, st)
  else
    match encodeMessage m with
    | none => (false, st)
    | some bytes => (true, { st with wire := st.wire ++ [bytes] })

/-- `MIDIManager::sendNoteOn`. -/
def sendNoteOn (st : MIDIManagerState) (channel note velocity : Int) :
    Bool × MIDIManagerState :=
  sendMessage st ⟨.noteOn, channel, note, velocity⟩

/-- `MIDIManager::sendNoteOff`. -/
def sendNoteOff (st : MIDIManagerState) (channel note : Int) :
    Bool × MIDIManagerState :=
  sendMessage st ⟨.noteOff, channel, note, 0⟩

/-- `MIDIManager::queueMessage`: enqueue for the background consumer. -/
def queueMessage (st : MIDIManagerState) (m : MIDIMessage) : MIDIManagerState :=
  { st with messageQueue := st.messageQueue ++ [m] }

/-- State of the object-dialect `SeqObject`: a 16-slot data buffer, a
position, a play length and a playing flag. -/
structure SeqObjectState where
  data : List Int
  position : Int
  length : Int
  playing : Bool
  deriving DecidableEq

/-- `SeqObject`'s constructor: 16 zeroed steps, position 0, length 8,
stopped. -/
def seqObjInit : SeqObjectState :=
  { data := List.replicate 16 0, position := 0, length := 8, playing := false }

/-- `SeqObject::getValue`: return `data[position]` when the stored position
is a valid index, 0 otherwise. -/
def seqObjGetValue (st : SeqObjectState) : Int :=
  if 0 ≤ st.position ∧ st.position < (st.data.length : Int) then
    st.data.getD st.position.toNat 0
  else 0

/-- The `data` attribute setter loop of `SeqObject::setAttribute`: copy the
low 8 bits of the pattern into the first 8 slots. -/
def seqSetDataBits (d : List Int) (pattern : Int) : List Int :=
  (List.range 8).foldl
    (fun acc i =>
      if i < acc.length then
        acc.set i (if Int.land pattern (2 ^ i) != 0 then 1 else 0)
      else acc)
    d

/-- `SeqObject::setAttribute`; an unknown attribute raises, modelled by
`Except.error` carrying the attribute name. -/
def seqObjSetAttribute (st : SeqObjectState) (name : String) (v : Int) :
    Except String SeqObjectState :=
  if name == "data" then .ok { st with data := seqSetDataBits st.data v }
  else if name == "pos" || name == "position" then
    .ok { st with position := v.tmod (st.data.length : Int) }
  else if name == "length" then .ok { st with length := max 1 (min 16 v) }
  else if name == "step" then
    let step := Int.land v 0xF
    let val := Int.land (cppShr v 4) 0xFF
    if step < (st.data.length : Int) then
      .ok { st with data := st.data.set step.toNat val }
    else .ok st
  else .error name

/-- `SeqObject::onTick`: advance the position modulo `length` while
playing. -/
def seqObjOnTick (st : SeqObjectState) : SeqObjectState :=
  if st.playing then { st with position := (st.position + 1).tmod st.length }
  else st

/-- State of `MIDISeqObject`: the base `SeqObject` plus channel, per-step
note table, velocity and the MIDI-enable flag. -/
structure MIDISeqState where
  base : SeqObjectState
  midiChannel : Int
  notes : List Int
  velocity : Int
  midiEnabled : Bool
  deriving DecidableEq

/-- `MIDISeqObject`'s constructor: channel 0, sixteen C4 (=60) notes,
velocity 100, MIDI enabled. -/
def midiSeqInit : MIDISeqState :=
  { base := seqObjInit, midiChannel := 0, notes := List.replicate 16 60,
    velocity := 100, midiEnabled := true }

/-- A deferred event as enqueued by `MIDISeqObject::onTick`: the lambda that
sends a note-off for a captured channel and note when the queue is
drained. -/
inductive KEvent where
  | noteOffEv (channel note : Int)
  deriving DecidableEq

/-- One observable MIDI side effect (a send through the manager). -/
inductive MidiSend where
  | on (channel note velocity : Int)
  | off (channel note : Int)
  deriving DecidableEq

/-- Executing a drained event (`event(*this)` in `Environment::tick`): the
note-off lambda sends its note-off. -/
def runEvent (e : KEvent) : MidiSend :=
  match e with
  | .noteOffEv ch n => MidiSend.off ch n

/-- `MIDISeqObject::onTick`: run the base `SeqObject::onTick`, then, when
MIDI is enabled and the current step value is positive and the position
addresses a non-negative note, send note-on immediately and enqueue the
note-off event.  Returns the updated object, the events handed to
`Environment::queueEvent`, and the sends performed directly. -/
def midiSeqOnTick (st : MIDISeqState) : MIDISeqState × List KEvent × List MidiSend :=
  let b := seqObjOnTick st.base
  let st1 := { st with base := b }
  if st.midiEnabled && decide (seqObjGetValue b > 0) then
    let position := b.position
    if 0 ≤ position ∧ position < (st.notes.length : Int) then
      let note := st.notes.getD position.toNat 0
      if 0 ≤ note then
        (st1, [KEvent.noteOffEv st.midiChannel note],
          [MidiSend.on st.midiChannel note st.velocity])
      else (st1, [], [])
    else (st1, [], [])
  else (st1, [], [])

/-- The `Environment` of the object dialect, specialised to the scenario the
deferred-event claim cites: one `MIDISeqObject` variable, no registered
tick handlers, the deferred-event queue, and the log of MIDI sends
performed so far (in order). -/
structure KEnv where
  tickCounter : Int
  obj : MIDISeqState
  eventQueue : List KEvent
  sent : List MidiSend
  deriving DecidableEq

/-- `Environment::tick`: advance the wrap-around counter, run every
object's `onTick` (appending any events they enqueue to the event queue),
then move the whole event queue aside, clear it, and execute every taken
event — all within this same call. -/
def envTick (env : KEnv) : KEnv :=
  let counter := (env.tickCounter + 1).tmod 256
  let r := midiSeqOnTick env.obj
  let queueAfterUpdates := env.eventQueue ++ r.2.1
  let drained := queueAfterUpdates.map runEvent
  { tickCounter := counter, obj := r.1, eventQueue := [],
    sent := env.sent ++ r.2.2 ++ drained }

/-- The concrete scenario for the deferred-event claim: a playing
`MIDISeqObject` whose step 1 is on, so the first tick moves the position to
1, finds a positive step value and a valid note, sends note-on and
enqueues the note-off. -/
def envC1 : KEnv :=
  { tickCounter := 0,
    obj := { midiSeqInit with
      base := { seqObjInit with
        data := [0, 1, 0, 0, 0, 0, 0, 0, 0, 0, 0, 0, 0, 0, 0, 0],
        playing := true } },
    eventQueue := [], sent := [] }

/-- The ten decimal digit characters. -/
def decimalDigits : List Char :=
  ['0', '1', '2', '3', '4', '5', '6', '7', '8', '9']

/-- C3: the evaluator respects the documented 13-level precedence; in
particular `2+3*4 = 14`, `1<<2+1 = 8` (additive binds tighter than shift)
and `1?2:3?4:5 = 2` (right-associative conditional), each fully consuming
its input with no diagnostics. -/
theorem kodeq_C3_precedence :
    evaluateF defaultCtx 64 ['2', '+', '3', '*', '4'] = some (14, []) ∧
    evaluateF defaultCtx 64 ['1', '<', '<', '2', '+', '1'] = some (8, []) ∧
    evaluateF defaultCtx 64 ['1', '?', '2', ':', '3', '?', '4', ':', '5'] = some (2, []) := by
  refine ⟨by decide, by decide, by decide⟩

/-- C4: division or modulo whose right operand evaluates to zero is
non-fatal: the offending term yields 0 and a diagnostic, and the rest of
the expression still contributes to a returned result — for any decimal
digit `c`, `c/0+5` and `c%0+5` evaluate to 5 with exactly the one
diagnostic, and `7+c/0` evaluates to 7 with the one diagnostic. -/
theorem kodeq_C4_divzero_nonfatal (c : Char) (h : c ∈ decimalDigits) :
    evaluateF defaultCtx 64 [c, '/', '0', '+', '5'] = some (5, [Diag.divByZero]) ∧
    evaluateF defaultCtx 64 [c, '%', '0', '+', '5'] = some (5, [Diag.modByZero]) ∧
    evaluateF defaultCtx 64 ['7', '+', c, '/', '0'] = some (7, [Diag.divByZero]) := by
  fin_cases h <;> exact ⟨by decide, by decide, by decide⟩

/-- Witness for C4 at the digit 1. -/
theorem kodeq_C4_witness :
    '1' ∈ decimalDigits ∧
    evaluateF defaultCtx 64 ['1', '/', '0', '+', '5'] = some (5, [Diag.divByZero]) :=
  ⟨by decide, (kodeq_C4_divzero_nonfatal '1' (by decide)).1⟩

/-- The `parsePrimary`/`parseFunction` pair of `expression.cpp` cycles
without consuming input on a bare identifier such as `q`: whatever the
fuel, neither call completes. -/
theorem pstep_q_spins (ctx : EvalCtx) : ∀ n : Nat,
    pstep ctx n (.cPrimary ['q']) = none ∧ pstep ctx n (.cFunction ['q']) = none := by
  intro n
  induction n with
  | zero => exact ⟨rfl, rfl⟩
  | succ n ih => exact ⟨ih.2, ih.1⟩

/-- Every level of the descent above `parsePrimary` also fails to complete
on the input `q`, for every fuel. -/
theorem pstep_q_tower (ctx : EvalCtx) : ∀ n : Nat,
    pstep ctx n (.cTerm ['q']) = none ∧ pstep ctx n (.cAdd ['q']) = none ∧
    pstep ctx n (.cShift ['q']) = none ∧ pstep ctx n (.cRel ['q']) = none ∧
    pstep ctx n (.cEq ['q']) = none ∧ pstep ctx n (.cBand ['q']) = none ∧
    pstep ctx n (.cBxor ['q']) = none ∧ pstep ctx n (.cBor ['q']) = none ∧
    pstep ctx n (.cLand ['q']) = none ∧ pstep ctx n (.cLor ['q']) = none ∧
    pstep ctx n (.cCond ['q']) = none := by
  intro n
  induction n with
  | zero => exact ⟨rfl, rfl, rfl, rfl, rfl, rfl, rfl, rfl, rfl, rfl, rfl⟩
  | succ n ih =>
    obtain ⟨h1, h2, h3, h4, h5, h6, h7, h8, h9, h10, h11⟩ := ih
    have hp := (pstep_q_spins ctx n).1
    refine ⟨?_, ?_, ?_, ?_, ?_, ?_, ?_, ?_, ?_, ?_, ?_⟩ <;>
      simp only [pstep, hp, h1, h2, h3, h4, h5, h6, h7, h8, h9, h10, h11]

/-- C5: `ExpressionEvaluator::evaluate` does not terminate on the input
`q` — an alphabetic identifier that is no recognized function name and is
not followed by a parenthesis.  In the fuel model: no fuel bound, however
large, lets evaluation finish, because `parsePrimary` forwards the
identifier to `parseFunction`, which fails to see `(`, resets the iterator
and calls `parsePrimary` again at the same position. -/
theorem kodeq_C5_nontermination (ctx : EvalCtx) (fuel : Nat) :
    evaluateF ctx fuel ['q'] = none := by
  have h := (pstep_q_tower ctx fuel).2.2.2.2.2.2.2.2.2.2
  simp only [evaluateF, h]

/-- C1: the note-off that `MIDISeqObject::onTick` enqueues during a tick's
per-object update pass is executed by that same `Environment::tick` call:
starting from a playing sequence whose step 1 is on and an empty event
queue, one tick emits both the note-on and the note-off, and leaves the
event queue empty — the deferred note-off did not survive to the next
tick, contradicting the claimed next-tick execution. -/
theorem kodeq_C1_same_tick_noteoff :
    envC1.eventQueue = [] ∧
    (midiSeqOnTick envC1.obj).2.1 = [KEvent.noteOffEv 0 60] ∧
    (envTick envC1).sent = [MidiSend.on 0 60 100, MidiSend.off 0 60] ∧
    (envTick envC1).eventQueue = [] := by
  refine ⟨rfl, by decide, by decide, rfl⟩

/-- C2 counterexample: applying `setParameter("P", 20)` once and then a
second time leaves seed, probability and length all equal, yet the two
regenerated buffers differ — each regeneration consumes the random engine's
stream, so the buffer is not a function of (seed, probability, length)
alone. -/
theorem kodeq_C2_counterexample :
    (rndSetParameter rndInit "P" 20).seed =
      (rndSetParameter (rndSetParameter rndInit "P" 20) "P" 20).seed ∧
    (rndSetParameter rndInit "P" 20).probability =
      (rndSetParameter (rndSetParameter rndInit "P" 20) "P" 20).probability ∧
    (rndSetParameter rndInit "P" 20).length =
      (rndSetParameter (rndSetParameter rndInit "P" 20) "P" 20).length ∧
    (rndSetParameter rndInit "P" 20).pattern ≠
      (rndSetParameter (rndSetParameter rndInit "P" 20) "P" 20).pattern := by
  refine ⟨rfl, rfl, rfl, by decide⟩

/-- C2 as amended: regeneration is deterministic in the engine state
(seed last fed to the engine and number of values drawn) together with
probability and length — not in (seed, probability, length) alone — and a
`P` mutation performs exactly one immediate regeneration, with the clamped
new probability. -/
theorem kodeq_C2_regen (s₁ s₂ : RndState) (v : Int)
    (hseed : s₁.rngSeed = s₂.rngSeed) (hpos : s₁.rngPos = s₂.rngPos)
    (hp : s₁.probability = s₂.probability) (hl : s₁.length = s₂.length) :
    (generatePattern s₁).pattern = (generatePattern s₂).pattern ∧
    (rndSetParameter s₁ "P" v).regenCount = s₁.regenCount + 1 ∧
    (rndSetParameter s₁ "P" v).pattern =
      (generatePattern { s₁ with probability := min 100 (max 0 v) }).pattern := by
  refine ⟨?_, rfl, rfl⟩
  simp only [generatePattern, hseed, hpos, hp, hl]

/-- Witness for C2's amended statement at two structurally distinct states
with the same engine state, probability and length. -/
theorem kodeq_C2_witness :
    (generatePattern rndInit).pattern =
      (generatePattern { rndInit with pos := 5 }).pattern ∧
    (rndSetParameter rndInit "P" 20).regenCount = rndInit.regenCount + 1 ∧
    (rndSetParameter rndInit "P" 20).pattern =
      (generatePattern { rndInit with probability := min 100 (max 0 20) }).pattern :=
  kodeq_C2_regen rndInit { rndInit with pos := 5 } 20 rfl rfl rfl rfl

/-- C6: every `setParameter` call on every generator variant preserves the
documented range invariant — steps/length at least 1, amplitude in
[0,127], duty and probability in [0,100] — whatever integer is supplied
(and every freshly constructed generator satisfies it, see the witness). -/
theorem kodeq_C6_invariant (m : KModule) (name : String) (v : Int) (h : minv m) :
    minv (setParameter m name v) := by
  cases m with
  | pat p i =>
    simp only [setParameter]
    split_ifs <;> simp only [minv]
  | euc hh ss ii =>
    simp only [minv] at h
    simp only [setParameter]
    split_ifs <;> (simp only [minv]; omega)
  | sin l p a =>
    simp only [minv] at h
    simp only [setParameter]
    split_ifs <;> (simp only [minv]; omega)
  | tri l p a =>
    simp only [minv] at h
    simp only [setParameter]
    split_ifs <;> (simp only [minv]; omega)
  | saw l p a =>
    simp only [minv] at h
    simp only [setParameter]
    split_ifs <;> (simp only [minv]; omega)
  | sqr l p a d =>
    simp only [minv] at h
    simp only [setParameter]
    split_ifs <;> (simp only [minv]; omega)
  | rnd s =>
    simp only [minv] at h
    simp only [setParameter, rndSetParameter]
    split_ifs <;> (simp only [generatePattern, minv]; omega)
  | seqm st p l lp =>
    simp only [minv] at h
    simp only [setParameter]
    split_ifs <;> try (simp only [minv]; omega)
    split
    · split_ifs <;> (simp only [minv]; omega)
    · simp only [minv]; omega

/-- Witness for C6: a fresh Euclidean generator mutated with a negative
step count keeps steps at least 1. -/
theorem kodeq_C6_witness : minv (setParameter (KModule.euc 0 8 0) "N" (-5)) :=
  kodeq_C6_invariant (KModule.euc 0 8 0) "N" (-5) (by decide)

/-- C7: for any state with steps at least 1, the Euclidean generator
returns 1 exactly when `(index*hits) mod steps < hits` (C++ truncated
`%`), returns 1 whenever hits is at least steps, returns 0 whenever hits
is 0, and over indices 0..7 with hits=3, steps=8 yields exactly
[1,0,0,1,0,0,1,0]. -/
theorem kodeq_C7_euclid (hits steps index : Int) (hs : 1 ≤ steps) :
    (eucGetValue hits steps index = 1 ↔ (index * hits).tmod steps < hits) ∧
    (steps ≤ hits → eucGetValue hits steps index = 1) ∧
    (hits = 0 → eucGetValue hits steps index = 0) ∧
    (List.range 8).map (fun i => eucGetValue 3 8 (Int.ofNat i)) =
      [1, 0, 0, 1, 0, 0, 1, 0] := by
  have h0 : ¬steps = 0 := by omega
  refine ⟨?_, ?_, ?_, by decide⟩
  · by_cases hge : hits ≥ steps
    · have hlt : (index * hits).tmod steps < hits :=
        lt_of_lt_of_le (Int.tmod_lt_of_pos _ (by omega)) hge
      simp [eucGetValue, h0, hge, hlt]
    · by_cases hz : hits = 0
      · subst hz
        simp [eucGetValue, h0, hge]
      · simp only [eucGetValue, if_neg h0, if_neg hge, if_neg hz]
        split_ifs with hc <;> simp [hc]
  · intro hge
    simp [eucGetValue, h0, hge]
  · intro hz
    subst hz
    simp [eucGetValue, h0, show ¬(0 : Int) ≥ steps by omega]

/-- Witness for C7 at hits=3, steps=8, index=5. -/
theorem kodeq_C7_witness :
    (eucGetValue 3 8 5 = 1 ↔ ((5 : Int) * 3).tmod 8 < 3) ∧
    ((8 : Int) ≤ 3 → eucGetValue 3 8 5 = 1) ∧
    ((3 : Int) = 0 → eucGetValue 3 8 5 = 0) ∧
    (List.range 8).map (fun i => eucGetValue 3 8 (Int.ofNat i)) =
      [1, 0, 0, 1, 0, 0, 1, 0] :=
  kodeq_C7_euclid 3 8 5 (by decide)

/-- C8 counterexample: `S01` is outside the Sequencer's documented
parameter set (`POS`, `LEN`, `LOOP`, `S1`–`S16`), yet `setParameter`
with it is not a no-op — `std::stoi("01")` reads 1, so step 1 is
written. -/
theorem kodeq_C8_counterexample :
    "S01" ∉ seqSpecParams ∧
    setParameter (KModule.seqm (List.replicate 16 0) 0 8 true) "S01" 5 ≠
      KModule.seqm (List.replicate 16 0) 0 8 true := by
  refine ⟨by decide, by decide⟩

/-- C8 as amended: `setParameter` with a name outside the variant's
recognized set is a complete no-op for every generator variant, where the
Sequencer's recognized step-setter names are all names `S`+suffix whose
suffix `std::stoi`-parses to a value in [1,16] (aliases such as `S01` or
`S1X` included); every other unknown name changes nothing and raises no
error. -/
theorem kodeq_C8_unknown_noop (m : KModule) (name : String) (v : Int)
    (h : recognizedParam m name = false) : setParameter m name v = m := by
  cases m with
  | pat p i =>
    simp only [recognizedParam, Bool.or_eq_false_iff] at h
    simp [setParameter, h.1, h.2]
  | euc hh ss ii =>
    simp only [recognizedParam, Bool.or_eq_false_iff] at h
    simp [setParameter, h.1.1, h.1.2, h.2]
  | sin l p a =>
    simp only [recognizedParam, Bool.or_eq_false_iff] at h
    simp [setParameter, h.1.1, h.1.2, h.2]
  | tri l p a =>
    simp only [recognizedParam, Bool.or_eq_false_iff] at h
    simp [setParameter, h.1.1, h.1.2, h.2]
  | saw l p a =>
    simp only [recognizedParam, Bool.or_eq_false_iff] at h
    simp [setParameter, h.1.1, h.1.2, h.2]
  | sqr l p a d =>
    simp only [recognizedParam, Bool.or_eq_false_iff] at h
    simp [setParameter, h.1.1.1, h.1.1.2, h.1.2, h.2]
  | rnd s =>
    simp only [recognizedParam, Bool.or_eq_false_iff] at h
    simp [setParameter, rndSetParameter, h.1.1.1.1, h.1.1.1.2, h.1.1.2, h.1.2, h.2]
  | seqm st p l lp =>
    simp only [recognizedParam, Bool.or_eq_false_iff] at h
    obtain ⟨⟨⟨h1, h2⟩, h3⟩, h4⟩ := h
    simp only [setParameter, h1, h2, h3, Bool.false_eq_true, if_false]
    by_cases hS : (decide (name.length > 1) && (name.toList.headD ' ' == 'S')) = true
    · rw [if_pos hS]
      cases hcp : cppStoi (name.toList.drop 1) with
      | none => rfl
      | some k =>
        have hk : ¬(0 ≤ k - 1 ∧ k - 1 < 16) := by
          rw [Bool.and_eq_false_iff] at h4
          rcases h4 with h4 | h4
          · rw [h4] at hS
            simp at hS
          · rw [hcp] at h4
            simp only [Option.elim, Bool.and_eq_false_iff, decide_eq_false_iff_not] at h4
            omega
        simp only [hk]
        simp [hk]
    · rw [if_neg (by simpa using hS)]

/-- Witness for C8's amended statement: the unknown name `S0` (step index
0 is out of the 1–16 range) leaves a sequencer untouched. -/
theorem kodeq_C8_witness :
    setParameter (KModule.seqm (List.replicate 16 0) 0 8 true) "S0" 7 =
      KModule.seqm (List.replicate 16 0) 0 8 true :=
  kodeq_C8_unknown_noop (KModule.seqm (List.replicate 16 0) 0 8 true) "S0" 7 (by decide)

/-- C9: sending through an unopened or uninitialized sink fails fast —
`sendMessage` returns false and leaves the whole manager state (wire log
and producer queue included) untouched, and `sendNoteOn` behaves the same
way since it only wraps `sendMessage`. -/
theorem kodeq_C9_failfast (st : MIDIManagerState) (m : MIDIMessage)
    (h : st.initialized = false ∨ st.hasOut = false ∨ st.portOpen = false) :
    sendMessage st m = (false, st) ∧
    ∀ channel note velocity : Int, sendNoteOn st channel note velocity = (false, st) := by
  have hc : (st.initialized && st.hasOut && st.portOpen) = false := by
    rcases h with h | h | h <;> simp [h]
  constructor
  · simp [sendMessage, hc]
  · intro channel note velocity
    simp [sendNoteOn, sendMessage, hc]

/-- Witness for C9 on the freshly constructed manager. -/
theorem kodeq_C9_witness :
    sendMessage midiManagerInit ⟨MsgType.noteOn, 0, 60, 100⟩ = (false, midiManagerInit) :=
  (kodeq_C9_failfast midiManagerInit ⟨MsgType.noteOn, 0, 60, 100⟩ (Or.inl rfl)).1

/-- C10: `SeqObject::getValue` is total and in-bounds — whenever the stored
position lies outside the 16-entry buffer it returns 0 instead of
indexing, and setting the `pos` attribute to a value whose truncated
remainder mod 16 is negative (any negative value not a multiple of 16)
stores that negative position, on which `getValue` returns 0. -/
theorem kodeq_C10_seq_bounds (st : SeqObjectState) :
    (st.position < 0 ∨ (st.data.length : Int) ≤ st.position → seqObjGetValue st = 0) ∧
    ∀ v : Int, st.data.length = 16 → Int.tmod v 16 < 0 →
      seqObjSetAttribute st "pos" v = Except.ok { st with position := Int.tmod v 16 } ∧
      seqObjGetValue { st with position := Int.tmod v 16 } = 0 := by
  constructor
  · intro h
    simp only [seqObjGetValue]
    rw [if_neg (by omega)]
  · intro v hlen hneg
    constructor
    · simp [seqObjSetAttribute, hlen]
    · have hpos : ({ st with position := Int.tmod v 16 } : SeqObjectState).position =
          Int.tmod v 16 := rfl
      have hdata : ({ st with position := Int.tmod v 16 } : SeqObjectState).data =
          st.data := rfl
      simp only [seqObjGetValue, hpos, hdata]
      rw [if_neg (by omega)]

/-- Witness for C10: a fresh sequence with position set to -5. -/
theorem kodeq_C10_witness :
    seqObjSetAttribute seqObjInit "pos" (-5) =
      Except.ok { seqObjInit with position := Int.tmod (-5) 16 } ∧
    seqObjGetValue { seqObjInit with position := Int.tmod (-5) 16 } = 0 :=
  (kodeq_C10_seq_bounds seqObjInit).2 (-5) (by decide) (by decide)

/-- Every generator the factory constructs satisfies the range invariant,
so the invariant preserved by `kodeq_C6_invariant`-style reasoning holds in
every reachable state. -/
theorem minv_createModule (t : String) (m : KModule) (h : createModule t = some m) :
    minv m := by
  simp only [createModule] at h
  split_ifs at h <;> simp_all <;> subst h <;> decide
